import Mathlib

/-!
# Shallow embedding of the quiz-session server core

This file embeds the data model and operations of the quiz-session server
(Question / Quiz / Session / SessionController and the submission parser)
as executable Lean definitions, and proves properties of them.

Conventions used throughout:
* `Immutable.Map` values are embedded as insertion-ordered association
  lists with unique keys (`SMap`); `set` replaces in place or appends.
* JavaScript numbers that can become `NaN` on the modelled code paths are
  embedded as `JsNum := Option ℤ`, `none` standing for a non-numeric
  result (`undefined + 1 = NaN`, `NaN + 1 = NaN`).
* Fields that JavaScript may leave `undefined` or `null` are embedded as
  `JsVal` (three-valued) where the distinction matters (strict `!== null`
  comparisons), and as `Option` where only `== null` (loose) is used.
* Thrown exceptions are embedded as explicit result constructors.
-/

namespace QuizEz

/-- A JavaScript number used as a frequency count: `some n` is an ordinary
integer count, `none` models `NaN` (and `undefined` read back from a map
miss, which behaves the same on every modelled path). -/
abbrev JsNum := Option ℤ

/-- Embeds `v + 1` with JavaScript semantics on counts: `NaN + 1 = NaN`. -/
def jsAdd1 (v : JsNum) : JsNum := v.map (· + 1)

/-- JavaScript addition on counts: any `NaN` operand gives `NaN`. -/
def jsAdd (a b : JsNum) : JsNum :=
  match a, b with
  | some x, some y => some (x + y)
  | _, _ => none

/-- A three-valued JavaScript field: `undefined`, `null`, or a value.
Needed where the source distinguishes them (`!== null` is strict). -/
inductive JsVal (α : Type) where
  | undef : JsVal α
  | nullv : JsVal α
  | val : α → JsVal α
deriving DecidableEq, Repr

/-- An insertion-ordered string-keyed map with unique keys, the embedding of
`Immutable.Map<string, α>`. -/
structure SMap (α : Type) where
  entries : List (String × α)
deriving DecidableEq, Repr

namespace SMap

def empty {α : Type} : SMap α := ⟨[]⟩

def get? {α : Type} (m : SMap α) (k : String) : Option α :=
  (m.entries.find? (fun p => p.1 == k)).map Prod.snd

def has {α : Type} (m : SMap α) (k : String) : Bool :=
  (m.get? k).isSome

def set {α : Type} (m : SMap α) (k : String) (v : α) : SMap α :=
  if m.has k then ⟨m.entries.map (fun p => if p.1 == k then (k, v) else p)⟩
  else ⟨m.entries ++ [(k, v)]⟩

def delete {α : Type} (m : SMap α) (k : String) : SMap α :=
  ⟨m.entries.filter (fun p => p.1 != k)⟩

def size {α : Type} (m : SMap α) : ℕ := m.entries.length

def values {α : Type} (m : SMap α) : List α := m.entries.map Prod.snd

def keys {α : Type} (m : SMap α) : List String := m.entries.map Prod.fst

end SMap

/-- Embeds `QuestionFormat`: discriminator of question bodies and responses. -/
inductive QuestionFormat where
  | MultipleChoiceFormat
  | FillInFormat
deriving DecidableEq, Repr

/-- A user's response, the tagged union `ResponseType`
(`MultipleChoiceResponse | FillInResponse`). -/
inductive ResponseType where
  | mc (submitter : String) (answer : ℤ)
  | fillIn (submitter : String) (answer : String)
deriving DecidableEq, Repr

namespace ResponseType

def submitter : ResponseType → String
  | .mc s _ => s
  | .fillIn s _ => s

/-- The `type` discriminator of a response. -/
def type : ResponseType → QuestionFormat
  | .mc _ _ => .MultipleChoiceFormat
  | .fillIn _ _ => .FillInFormat

end ResponseType

/-- A multiple-choice answer choice `{ text, points }`. -/
structure MultipleChoiceAnswer where
  text : String
  points : ℤ
deriving DecidableEq, Repr

/-- A fill-in answer `{ text, points }`. -/
structure FillInAnswer where
  text : String
  points : ℤ
deriving DecidableEq, Repr

/-- A validated question body (`QuestionBodyType`): `MultipleChoice` holds
its choices and correct index, `FillIn` holds the map from lowercased
answer text to the answer (`FillInQuestion._answers`). -/
inductive QuestionBodyType where
  | mc (choices : List MultipleChoiceAnswer) (answer : ℤ)
  | fillIn (answers : SMap FillInAnswer)
deriving DecidableEq, Repr

/-- Participant feedback `{ rating, message }`. -/
structure Feedback where
  rating : ℤ
  message : String
deriving DecidableEq, Repr

/-- The model of JavaScript `toLowerCase()`: lowercase every character.
Defined structurally over the character list so that it computes by
kernel reduction (`String.toLower` is defined via `String.mapAux`, which
does not). -/
def jsToLower (s : String) : String := ⟨s.data.map Char.toLower⟩

/-- JavaScript list indexing `l[i]` for a possibly negative index:
out-of-range access yields `undefined` (`none`). -/
def listGetInt {α : Type} (l : List α) (i : ℤ) : Option α :=
  if i < 0 then none else l.get? i.toNat

/-- The state of a `Question` (fields of the abstract class plus the body
held by the concrete subclass). -/
structure Question where
  index : ℤ
  text : String
  timeLimit : ℤ
  totalPoints : ℤ
  body : QuestionBodyType
  responses : SMap ResponseType
  frequency : SMap JsNum
  firstCorrect : Option String
  feedback : SMap Feedback
  isStarted : Bool
  hasEnded : Bool
deriving DecidableEq, Repr

namespace Question

/-- Embeds `Question.start()`: opens the question to responses (the armed timer is
implicit: it is pending exactly while `isStarted ∧ ¬hasEnded`). -/
def start (q : Question) : Question := { q with isStarted := true }

/-- Embeds `Question.end()`: iff started, marks ended (and clears the timer). -/
def endQ (q : Question) : Question :=
  if q.isStarted then { q with hasEnded := true } else q

/-- Embeds `gradeResponse` of the concrete subclasses. `none` models the uncaught
`TypeError` raised when a multiple-choice body's `answer` indexes outside
`choices` and the response matches it (`choices[answer]!.points` on
`undefined`). All other paths return the earned points. -/
def gradeResponse (q : Question) (r : ResponseType) : Option ℤ :=
  match q.body, r with
  | .mc choices answer, .mc _ rAnswer =>
      if rAnswer = answer then (listGetInt choices answer).map (·.points)
      else some 0
  | .fillIn answers, .fillIn _ rAnswer =>
      match answers.get? (jsToLower rAnswer) with
      | some a => some a.points
      | none => some 0
  | .mc _ _, .fillIn _ _ => some 0
  | .fillIn _, .mc _ _ => some 0

/-- Embeds `updateFrequency` of the concrete subclasses. Multiple choice keys on
`answer.toString()` and reads the previous count with a non-null
assertion (a missing key gives `undefined + 1 = NaN`); fill-in keys on
the raw (not lowercased) response text with `?? 0` on a miss. A response
whose kind differs from the body's is ignored. -/
def updateFrequency (q : Question) (r : ResponseType) : Question :=
  match q.body, r with
  | .mc _ _, .mc _ rAnswer =>
      let key := toString rAnswer
      match q.frequency.get? key with
      | some v => { q with frequency := q.frequency.set key (jsAdd1 v) }
      | none => { q with frequency := q.frequency.set key none }
  | .fillIn _, .fillIn _ rAnswer =>
      let key := rAnswer
      match q.frequency.get? key with
      | some v => { q with frequency := q.frequency.set key (jsAdd1 v) }
      | none => { q with frequency := q.frequency.set key (some 1) }
  | .mc _ _, .fillIn _ _ => q
  | .fillIn _, .mc _ _ => q

/-- Embeds `frequencyOf` of the concrete subclasses: multiple choice reads the
count at `answer.toString()` (a miss gives `undefined`, modelled `none`);
fill-in reads the count at the LOWERCASED response text with `?? 0`. -/
def frequencyOf (q : Question) (r : ResponseType) : JsNum :=
  match q.body, r with
  | .mc _ _, .mc _ rAnswer =>
      match q.frequency.get? (toString rAnswer) with
      | some v => v
      | none => none
  | .fillIn _, .fillIn _ rAnswer =>
      match q.frequency.get? (jsToLower rAnswer) with
      | some v => v
      | none => some 0
  | .mc _ _, .fillIn _ _ => some 0
  | .fillIn _, .mc _ _ => some 0

/-- Embeds `numResponses`. -/
def numResponses (q : Question) : ℕ := q.responses.size

end Question

/-- The error thrown by `Question.addResponse`. -/
inductive AddResponseError where
  | notStarted
  | ended
  | duplicate
deriving DecidableEq, Repr

/-- Outcome of `Question.addResponse`: `ok` carries the updated question and
the returned points; `thrown` one of the three guard errors (state
unchanged); `crashed` the `TypeError` escaping from `gradeResponse`
(the response was already recorded at that point). -/
inductive AddResponseResult where
  | ok (q : Question) (points : ℤ)
  | thrown (e : AddResponseError)
  | crashed (q : Question)
deriving DecidableEq, Repr

namespace Question

/-- Embeds `Question.addResponse(response)` of the base class: guard checks in
source order, then record the response, grade it, possibly set
`firstCorrect`, update the frequency map, and return the points. -/
def addResponse (q : Question) (r : ResponseType) : AddResponseResult :=
  if ¬ q.isStarted then .thrown .notStarted
  else if q.hasEnded then .thrown .ended
  else if q.responses.has r.submitter then .thrown .duplicate
  else
    let q1 := { q with responses := q.responses.set r.submitter r }
    match q1.gradeResponse r with
    | none => .crashed q1
    | some points =>
        let q2 := if 0 < points ∧ q1.firstCorrect = none
          then { q1 with firstCorrect := some r.submitter } else q1
        .ok (q2.updateFrequency r) points

/-- Embeds `Question.addFeedback(user, feedback)`. -/
def addFeedback (q : Question) (user : String) (fb : Feedback) :
    Question × Bool :=
  if q.feedback.has user then (q, false)
  else ({ q with feedback := q.feedback.set user fb }, true)

end Question

/-- The `MultipleChoiceQuestion` constructor together with its `parseBody`:
copies the choices, records the answer index, sums the points and
pre-seeds the frequency map with `index.toString() ↦ 0` for every
choice index. -/
def mkMultipleChoiceQuestion (text : String)
    (choices : List MultipleChoiceAnswer) (answer : ℤ) (timeLimit : ℤ) :
    Question :=
  { index := -1
    text := text
    timeLimit := timeLimit
    totalPoints := (choices.map (·.points)).sum
    body := .mc choices answer
    responses := SMap.empty
    frequency := (List.range choices.length).foldl
      (fun m i => m.set (toString (i : ℤ)) (some 0)) SMap.empty
    firstCorrect := none
    feedback := SMap.empty
    isStarted := false
    hasEnded := false }

/-- The `FillInQuestion` produced by `fromFillInSubmission` via its
`parseBody`: the answers map and the frequency map are both keyed on
`answer.text.toLowerCase()`, the frequency pre-seeded at 0. -/
def mkFillInQuestion (text : String) (answers : List FillInAnswer)
    (timeLimit : ℤ) : Question :=
  { index := -1
    text := text
    timeLimit := timeLimit
    totalPoints := (answers.map (·.points)).sum
    body := .fillIn (answers.foldl
      (fun m a => m.set (jsToLower a.text) a) SMap.empty)
    responses := SMap.empty
    frequency := answers.foldl
      (fun m a => m.set (jsToLower a.text) (some 0)) SMap.empty
    firstCorrect := none
    feedback := SMap.empty
    isStarted := false
    hasEnded := false }

/-! ## Error descriptors and the submission parser -/

/-- The scalar-or-nested `value` of an error descriptor
`{field, value}`. `other` absorbs structured values (whole arrays) whose
content no claim depends on. -/
inductive JsValue where
  | null
  | num (n : ℤ)
  | str (s : String)
  | nested (field : String) (index : ℕ) (value : JsValue)
  | other
deriving DecidableEq, Repr

/-- An error descriptor `{field, value}` (`ApiError` / `QuestionError`). -/
structure ApiError where
  field : String
  value : JsValue
deriving DecidableEq, Repr

/-- Embeds `validateSubmission(text, body, timeLimit)`: collects null-field errors;
a missing body or missing body type fails immediately. The result is the
error list, empty meaning success. `bodyType` is `none` when `body` itself
is null, `some none` when `body.type` is null. -/
def validateSubmission (text : Option String)
    (bodyType : Option (Option QuestionFormat)) (timeLimit : Option ℤ) :
    List ApiError :=
  let e1 := if text = none then [⟨"text", .null⟩] else []
  let e2 := e1 ++ (if timeLimit = none then [⟨"timeLimit", .null⟩] else [])
  match bodyType with
  | none => e2 ++ [⟨"body", .null⟩]
  | some none => e2 ++ [⟨"body", .null⟩]
  | some (some _) => e2

/-- Embeds `Question.validateQuestionText` (the `text != null` case). -/
def validateQuestionText (text : String) : List ApiError :=
  if text.length = 0 then [⟨"text", .str text⟩] else []

/-- Embeds `Question.validateQuestionPoints`: only the lower bound
`minTotalPoints = 100` is checked in this revision. -/
def validateQuestionPoints (totalPoints : ℤ) : List ApiError :=
  if totalPoints < 100 then [⟨"totalPoints", .num totalPoints⟩] else []

/-- Embeds `Question.validateQuestionTimeLimit`: `60 ≤ t ≤ 300`. -/
def validateQuestionTimeLimit (timeLimit : ℤ) : List ApiError :=
  if timeLimit < 60 ∨ 300 < timeLimit then [⟨"timeLimit", .num timeLimit⟩]
  else []

/-- A submitted multiple-choice answer choice with possibly-missing
fields. -/
structure MultipleChoiceSubmissionAnswer where
  text : Option String
  points : Option ℤ
deriving DecidableEq, Repr

/-- A submitted multiple-choice body with possibly-missing fields. -/
structure MultipleChoiceSubmission where
  type : Option QuestionFormat
  choices : Option (List MultipleChoiceSubmissionAnswer)
  answer : Option ℤ
deriving DecidableEq, Repr

/-- A submitted fill-in answer with possibly-missing fields. -/
structure FillInSubmissionAnswer where
  text : Option String
  points : Option ℤ
deriving DecidableEq, Repr

/-- A submitted fill-in body with possibly-missing fields. -/
structure FillInSubmission where
  type : Option QuestionFormat
  answers : Option (List FillInSubmissionAnswer)
deriving DecidableEq, Repr

/-- One step of the per-choice loop in
`MultipleChoiceQuestion.validateBody`: accumulate text/points errors and
the running total (a missing or negative points value poisons the total
to `null`). -/
def mcValidateStep (acc : List ApiError × Option ℤ)
    (p : ℕ × MultipleChoiceSubmissionAnswer) : List ApiError × Option ℤ :=
  let (errs, total) := acc
  let (i, choice) := p
  let errs := errs ++ (match choice.text with
    | none => [⟨"choices", .nested "text" i .null⟩]
    | some t =>
        if t.length = 0 then [⟨"choices", .nested "text" i (.str t)⟩]
        else [])
  match choice.points with
  | none => (errs ++ [⟨"answers", .nested "points" i .null⟩], none)
  | some pts =>
      if pts < 0 then (errs ++ [⟨"answers", .nested "points" i (.num pts)⟩],
        none)
      else (errs, total.map (· + pts))

/-- Embeds `MultipleChoiceQuestion.validateBody`. -/
def MultipleChoiceQuestion.validateBody (body : MultipleChoiceSubmission) :
    List ApiError :=
  let choicesErrors :=
    match body.choices with
    | none => [⟨"choices", .null⟩]
    | some choices =>
        if choices.length < 2 ∨ 4 < choices.length then
          [⟨"choices", .num choices.length⟩]
        else
          let (errs, total) := choices.enum.foldl mcValidateStep ([], some 0)
          errs ++ validateQuestionPoints (total.getD 0)
  let answerErrors :=
    match body.answer with
    | none => [⟨"answer", .null⟩]
    | some a =>
        if a < 0 ∨ (match body.choices with
            | some cs => ((cs.length : ℤ) ≤ a : Bool)
            | none => false) = true then
          [⟨"answer", .num a⟩]
        else []
  choicesErrors ++ answerErrors

/-- Embeds `MultipleChoiceQuestion.fromMultipleChoiceSubmission`: validate, then
construct. On the success path every choice field is present (validation
guarantees it), so the `getD` defaults used to strip the `Option`s are
never taken. -/
def fromMultipleChoiceSubmission (text : Option String)
    (body : Option MultipleChoiceSubmission) (timeLimit : Option ℤ) :
    Except (List ApiError) Question :=
  let vs := validateSubmission text (body.map (·.type)) timeLimit
  match text, body, timeLimit with
  | some t, some b, some tl =>
      if vs ≠ [] then .error vs
      else
        let errors := MultipleChoiceQuestion.validateBody b
          ++ validateQuestionText t ++ validateQuestionTimeLimit tl
        if errors = [] then
          .ok (mkMultipleChoiceQuestion t
            ((b.choices.getD []).map
              (fun c => ⟨c.text.getD "", c.points.getD 0⟩))
            (b.answer.getD 0) tl)
        else .error errors
  | _, _, _ => .error vs

/-- One step of the per-answer loop in `FillInQuestion.validateBody`:
unlike the multiple-choice version, a missing or negative points value
resets the running total to `0` (not `null`). -/
def fillInValidateStep (acc : List ApiError × Option ℤ)
    (p : ℕ × FillInSubmissionAnswer) : List ApiError × Option ℤ :=
  let (errs, total) := acc
  let (i, answer) := p
  let errs := errs ++ (match answer.text with
    | none => [⟨"answers", .nested "text" i .null⟩]
    | some t =>
        if t.length = 0 then [⟨"answers", .nested "text" i (.str t)⟩]
        else [])
  match answer.points with
  | none => (errs ++ [⟨"answers", .nested "points" i .null⟩], some 0)
  | some pts =>
      if pts < 0 then (errs ++ [⟨"answers", .nested "points" i (.num pts)⟩],
        some 0)
      else (errs, total.map (· + pts))

/-- Embeds `FillInQuestion.validateBody`. -/
def FillInQuestion.validateBody (body : FillInSubmission) : List ApiError :=
  match body.answers with
  | none => [⟨"answers", .null⟩]
  | some answers =>
      if answers.length < 1 ∨ 3 < answers.length then
        [⟨"answers", .other⟩]
      else
        let (errs, total) := answers.enum.foldl fillInValidateStep ([], some 0)
        errs ++ validateQuestionPoints (total.getD 0)

/-- Embeds `FillInQuestion.fromFillInSubmission`: validate, then construct via
`parseBody` (embedded by `mkFillInQuestion`). As in the multiple-choice
case the `getD` defaults are dead on the success path. -/
def fromFillInSubmission (text : Option String)
    (body : Option FillInSubmission) (timeLimit : Option ℤ) :
    Except (List ApiError) Question :=
  let vs := validateSubmission text (body.map (·.type)) timeLimit
  match text, body, timeLimit with
  | some t, some b, some tl =>
      if vs ≠ [] then .error vs
      else
        let errors := FillInQuestion.validateBody b
          ++ validateQuestionText t ++ validateQuestionTimeLimit tl
        if errors = [] then
          .ok (mkFillInQuestion t
            ((b.answers.getD []).map
              (fun a => ⟨a.text.getD "", a.points.getD 0⟩)) tl)
        else .error errors
  | _, _, _ => .error vs

/-- True when a parse result is a successfully constructed question. -/
def parseOk : Except (List ApiError) Question → Bool
  | .ok _ => true
  | .error _ => false

/-! ## Clone, Quiz, Session, and the Session Controller -/

namespace QuestionBodyType

/-- The `type` discriminator the `body` getters actually expose:
`MultipleChoiceQuestion.body` carries `type`, while `FillInQuestion.body`
omits it (it is `undefined` on the wire), embedded as `none`. -/
def format? : QuestionBodyType → Option QuestionFormat
  | .mc _ _ => some .MultipleChoiceFormat
  | .fillIn _ => none

/-- The body as rebuilt by the subclass `clone()` constructors: multiple
choice copies the choices array; fill-in rebuilds the answers map from
its values, re-keying each on `answer.text.toLowerCase()`. -/
def cloneBody : QuestionBodyType → QuestionBodyType
  | .mc choices answer => .mc choices answer
  | .fillIn answers =>
      .fillIn (answers.values.foldl (fun m a => m.set (jsToLower a.text) a)
        SMap.empty)

end QuestionBodyType

/-- The subclass `clone()` methods: a fresh question built from
`(text, body, timeLimit)` whose `totalPoints`, `firstCorrect`,
`frequency`, `responses`, `hasEnded` and `isStarted` are then copied
over. Neither `index` (left at its `-1` default) nor `_feedback`
(left empty) is copied. -/
def Question.clone (q : Question) : Question :=
  { index := -1
    text := q.text
    timeLimit := q.timeLimit
    totalPoints := q.totalPoints
    body := q.body.cloneBody
    responses := q.responses
    frequency := q.frequency
    firstCorrect := q.firstCorrect
    feedback := SMap.empty
    isStarted := q.isStarted
    hasEnded := q.hasEnded }

/-- Replace the element of `l` at JavaScript index `i` by `f` of it;
out-of-range indices leave the list unchanged. -/
def listModifyInt {α : Type} (l : List α) (i : ℤ) (f : α → α) : List α :=
  if i < 0 then l
  else match l.get? i.toNat with
    | some a => l.set i.toNat (f a)
    | none => l

/-- The `Quiz` state. -/
structure Quiz where
  questions : List Question
  currentQuestionIndex : ℤ
deriving DecidableEq, Repr

namespace Quiz

/-- Embeds `new Quiz()`. -/
def new : Quiz := ⟨[], -1⟩

/-- Embeds `numQuestions`. -/
def numQuestions (qz : Quiz) : ℤ := (qz.questions.length : ℤ)

/-- Embeds `currentQuestion`: the question at `currentQuestionIndex`, or nothing
when the index is out of range. -/
def currentQuestion (qz : Quiz) : Option Question :=
  if qz.currentQuestionIndex < 0 ∨ qz.numQuestions ≤ qz.currentQuestionIndex
  then none
  else listGetInt qz.questions qz.currentQuestionIndex

/-- Embeds `questionAt(index)`. -/
def questionAt (qz : Quiz) (i : ℤ) : Option Question :=
  listGetInt qz.questions i

/-- Embeds `addQuestion(question)`: append and assign
`question.index = size - 1`. -/
def addQuestion (qz : Quiz) (q : Question) : Quiz :=
  { questions := qz.questions ++ [{ q with index := (qz.questions.length : ℤ) }]
    currentQuestionIndex := qz.currentQuestionIndex }

/-- Embeds `advanceToNextQuestion()`: if a next question exists, increment the
index, `start()` the new current question and return it. -/
def advanceToNextQuestion (qz : Quiz) : Quiz × Option Question :=
  if qz.numQuestions ≤ qz.currentQuestionIndex + 1 then (qz, none)
  else
    let i := qz.currentQuestionIndex + 1
    let qs := listModifyInt qz.questions i Question.start
    (⟨qs, i⟩, listGetInt qs i)

/-- Embeds `removeQuestion(index)`: bounds-checked removal; `currentQuestionIndex`
is not adjusted and surviving questions are not re-indexed. -/
def removeQuestion (qz : Quiz) (i : ℤ) : Quiz × Option Question :=
  if i < 0 ∨ qz.numQuestions ≤ i then (qz, none)
  else (⟨qz.questions.eraseIdx i.toNat, qz.currentQuestionIndex⟩,
    listGetInt qz.questions i)

/-- Embeds `replaceQuestion(index, newQuestion)`: bounds-checked; replaces only
when the body `type` discriminators agree. -/
def replaceQuestion (qz : Quiz) (i : ℤ) (newQ : Question) :
    Quiz × Option Question :=
  if i < 0 ∨ qz.numQuestions ≤ i then (qz, none)
  else
    match listGetInt qz.questions i with
    | none => (qz, none)
    | some old =>
        if newQ.body.format? = old.body.format? then
          (⟨qz.questions.set i.toNat newQ, qz.currentQuestionIndex⟩, some old)
        else (qz, none)

/-- Embeds `Quiz.clone()`: clone every question, keep the current index. -/
def clone (qz : Quiz) : Quiz :=
  ⟨qz.questions.map Question.clone, qz.currentQuestionIndex⟩

end Quiz

/-- Embeds `User`. -/
structure User where
  name : String
  id : String
deriving DecidableEq, Repr

/-- The `Session` state. -/
structure Session where
  id : String
  owner : String
  users : SMap User
  quiz : Quiz
  isStarted : Bool
  hasEnded : Bool
deriving DecidableEq, Repr

namespace Session

/-- Embeds `new Session(owner)` with the generated 8-character id supplied as a
parameter (it is drawn at random in the source). -/
def new (id owner : String) : Session :=
  ⟨id, owner, SMap.empty, Quiz.new, false, false⟩

/-- Embeds `findUserByName(name)`. -/
def findUserByName (s : Session) (name : String) : Option User :=
  s.users.get? name

/-- Modelled from the spec: `findUserById(id)` of the dual-indexed user
collection (the Session revision holding it is not among the sources;
the spec describes users as indexed by both name and connection id). -/
def findUserById (s : Session) (id : String) : Option User :=
  (s.users.values.find? (fun u => u.id == id))

/-- Embeds `addUser(user)`: rejected when the user is the owner, the session has
started or ended, or the name is taken. -/
def addUser (s : Session) (u : User) : Session × Bool :=
  if u.id = s.owner ∨ s.isStarted ∨ s.hasEnded ∨ s.users.has u.name then
    (s, false)
  else ({ s with users := s.users.set u.name u }, true)

/-- Embeds `removeUser(name)`. -/
def removeUser (s : Session) (name : String) : Session × Option User :=
  match s.users.get? name with
  | some u => ({ s with users := s.users.delete u.name }, some u)
  | none => (s, none)

/-- Embeds `start()`. -/
def start (s : Session) : Session := { s with isStarted := true }

/-- Embeds `Session.end()`: sets `hasEnded` only — it touches neither the quiz
nor the current question (and so cancels no pending question timer). -/
def endS (s : Session) : Session := { s with hasEnded := true }

/-- The `quiz` getter: a deep clone once the session has ended, the live
quiz otherwise. -/
def quizView (s : Session) : Quiz :=
  if s.hasEnded then s.quiz.clone else s.quiz

end Session

/-- The wire event names (a string enum in the source). -/
inductive SessionEvent where
  | CreatedSession
  | JoinSession
  | UserJoinedSession
  | StartSession
  | SessionStarted
  | EndSession
  | SessionEnded
  | EndQuestion
  | QuestionEnded
  | QuestionResponse
  | QuestionResponseAdded
  | UserDisconnected
deriving DecidableEq, Repr

/-- Where an emission is delivered. -/
inductive EmitTarget where
  | room (room : String)
  | roomExcept (room : String) (except : String)
  | one (id : String)
deriving DecidableEq, Repr

/-- Event-specific broadcast data (only the shapes the claims need). -/
inductive EventData where
  | noData
  | questionEnded (question : ℤ)
  | userName (name : String)
deriving DecidableEq, Repr

/-- One emission produced by a handler. -/
structure Emitted where
  target : EmitTarget
  event : SessionEvent
  session : Option String
  data : EventData
deriving DecidableEq, Repr

/-- The acknowledgement envelope delivered through the callback. -/
inductive Ack where
  | success (event : SessionEvent) (session : Option String)
      (data : EventData)
  | failure (event : SessionEvent) (session : Option String)
      (errors : Option (List ApiError))
deriving DecidableEq, Repr

/-- Room-membership side effects requested from the transport. -/
inductive RoomEffect where
  | joinRoom (socket : String) (room : String)
  | socketsLeave (room : String)
  | idLeave (id : String) (room : String)
deriving DecidableEq, Repr

/-- The Session Controller state: the registry `sessionId → Session`. -/
structure SessionController where
  sessions : SMap Session
deriving DecidableEq, Repr

namespace SessionController

/-- Embeds `addUserToSession` (the join-session handler) for a caller that passed
arguments and a callback: returns the updated controller, the single
acknowledgement, the broadcasts, and the room effects. -/
def addUserToSession (ctrl : SessionController) (callerId : String)
    (argsId argsName : Option String) :
    SessionController × Ack × List Emitted × List RoomEffect :=
  match ctrl.sessions.get? (argsId.getD "") with
  | none =>
      (ctrl,
        .failure .JoinSession argsId
          (some [⟨"session", match argsId with
            | none => .null
            | some i => .str i⟩]),
        [], [])
  | some session =>
      match argsName with
      | none =>
          (ctrl, .failure .JoinSession (some session.id)
            (some [⟨"name", .null⟩]), [], [])
      | some name =>
          let (session', ok) := session.addUser ⟨name, callerId⟩
          if ok then
            ({ sessions := ctrl.sessions.set session.id session' },
              .success .JoinSession (some session.id) .noData,
              [⟨.roomExcept session.id callerId, .UserJoinedSession,
                some session.id, .userName name⟩],
              [.joinRoom callerId session.id])
          else
            (ctrl, .failure .JoinSession (some session.id)
              (some [⟨"name", .str name⟩]), [], [])

/-- Embeds `endCurrentQuestion` (the manual end-question handler) for a caller
that passed arguments and a callback. On success the current question is
ended in place, the owner is acknowledged, and `QuestionEnded` is
broadcast to the room EXCLUDING the owner. -/
def endCurrentQuestion (ctrl : SessionController) (callerId : String)
    (argsSession : Option String) (argsQuestion : Option ℤ) :
    SessionController × Ack × List Emitted :=
  match ctrl.sessions.get? (argsSession.getD "") with
  | none =>
      (ctrl, .failure .EndQuestion none (some [⟨"session", .null⟩]), [])
  | some session =>
      if session.owner ≠ callerId then
        (ctrl, .failure .EndQuestion (some session.id)
          (some [⟨"session", .str session.id⟩]), [])
      else if ¬ session.isStarted ∨ session.hasEnded then
        (ctrl, .failure .EndQuestion (some session.id) none, [])
      else
        let quiz := session.quizView
        let currentIndex := quiz.currentQuestionIndex
        match quiz.currentQuestion with
        | none =>
            (ctrl, .failure .EndQuestion (some session.id)
              (some [⟨"question", match argsQuestion with
                | none => .null
                | some qi => .num qi⟩]), [])
        | some _ =>
            if argsQuestion ≠ some currentIndex then
              (ctrl, .failure .EndQuestion (some session.id)
                (some [⟨"question", match argsQuestion with
                  | none => .null
                  | some qi => .num qi⟩]), [])
            else
              let session' := { session with
                quiz := ⟨listModifyInt session.quiz.questions currentIndex
                  Question.endQ, session.quiz.currentQuestionIndex⟩ }
              ({ sessions := ctrl.sessions.set session.id session' },
                .success .EndQuestion (some session.id) .noData,
                [⟨.roomExcept session.id session.owner, .QuestionEnded,
                  some session.id, .questionEnded currentIndex⟩])

/-- The `onTimeout` closure installed by `addQuestionToSession`, fired by
the timer of the question at list position `qpos` of the session's quiz:
`question.end()` then broadcast `QuestionEnded {question: question.index}`
to the WHOLE room (no exclusion). The closure captures the session and
question objects; `qpos` identifies the captured question inside the
registered session. -/
def questionOnTimeout (ctrl : SessionController) (sessionId : String)
    (qpos : ℤ) : SessionController × List Emitted :=
  match ctrl.sessions.get? sessionId with
  | none => (ctrl, [])
  | some session =>
      match listGetInt session.quiz.questions qpos with
      | none => (ctrl, [])
      | some question =>
          let session' := { session with
            quiz := ⟨listModifyInt session.quiz.questions qpos Question.endQ,
              session.quiz.currentQuestionIndex⟩ }
          ({ sessions := ctrl.sessions.set sessionId session' },
            [⟨.room sessionId, .QuestionEnded, some sessionId,
              .questionEnded question.index⟩])

/-- One room of the participant branch of `handleDisconnect`. -/
def disconnectFromRoom (socketId : String)
    (acc : SessionController × List Emitted) (room : String) :
    SessionController × List Emitted :=
  let (ctrl, emits) := acc
  if room ≠ socketId ∧ (ctrl.sessions.has room) = true then
    match ctrl.sessions.get? room with
    | some session =>
        match session.findUserById socketId with
        | some user =>
            let (session', _) := session.removeUser user.name
            ({ sessions := ctrl.sessions.set room session' },
              emits ++ [⟨.room room, .UserDisconnected, some session.id,
                .userName user.name⟩])
        | none => (ctrl, emits)
    | none => (ctrl, emits)
  else (ctrl, emits)

/-- Embeds `handleDisconnect`. Owner case: `session.end()` (which only flags the
session), drop the session from the registry, broadcast `SessionEnded`
to the room, force everyone out of the room; the final state of the
(now unregistered) session object is returned for inspection.
Participant case: for each of the socket's rooms naming a live session,
remove the user and notify the room. -/
def handleDisconnect (ctrl : SessionController) (socketId : String)
    (rooms : List String) :
    SessionController × List Emitted × List RoomEffect × Option Session :=
  match ctrl.sessions.entries.find? (fun p => p.2.owner == socketId) with
  | some (_, session) =>
      let endedSession := session.endS
      ({ sessions := ctrl.sessions.delete session.id },
        [⟨.room session.id, .SessionEnded, some session.id, .noData⟩],
        [.socketsLeave session.id],
        some endedSession)
  | none =>
      let (ctrl', emits) := rooms.foldl (disconnectFromRoom socketId)
        (ctrl, [])
      (ctrl', emits, [], none)

end SessionController

/-! ## Raw response payloads and `validateResponse` -/

/-- A raw client-submitted response payload (`Partial<ResponseType>`):
every field can be `undefined`, `null`, or a value. The `answer` field
carries either a number or a string. -/
inductive RawAnswer where
  | num (n : ℤ)
  | str (s : String)
deriving DecidableEq, Repr

/-- The raw response object before validation. -/
structure RawResponse where
  type : JsVal ℤ
  submitter : JsVal String
  answer : JsVal RawAnswer
deriving DecidableEq, Repr

/-- Embeds `validateResponse(response)`: `response == null` and
`response.type == null` are loose (rejecting both `null` and
`undefined`); `response.type in QuestionFormat` holds for the numeric
enum values `0` and `1`; but `answer !== null` and `submitter !== null`
are STRICT, so an `undefined` answer or submitter passes. -/
def validateResponse : JsVal RawResponse → Bool
  | .undef => false
  | .nullv => false
  | .val r =>
      (match r.type with
        | .val n => n = 0 ∨ n = 1
        | .undef => false
        | .nullv => false)
      && r.answer != .nullv
      && r.submitter != .nullv

/-- Outcome of the validation prefix of the `addQuestionResponse` handler:
which rejection branch fires, or that control reaches the
`question.addResponse(response)` call with the raw payload. -/
inductive QRespOutcome where
  | failSession
  | failName
  | failNoCurrentQuestion
  | failIndex
  | failResponseInvalid
  | proceeds (r : RawResponse)
deriving DecidableEq, Repr

/-- The validation prefix of `SessionController.addQuestionResponse`, in
source order: session lookup, user identity, current-question presence,
index match, then `validateResponse`; if all pass, the raw payload is
cast and handed to `Question.addResponse`. -/
def SessionController.addQuestionResponseChecks (ctrl : SessionController)
    (callerId : String) (argsSession argsName : Option String)
    (argsIndex : Option ℤ) (argsResponse : JsVal RawResponse) :
    QRespOutcome :=
  match ctrl.sessions.get? (argsSession.getD "") with
  | none => .failSession
  | some session =>
      match session.findUserByName (argsName.getD "") with
      | none => .failName
      | some user =>
          if user.id ≠ callerId then .failName
          else
            match session.quizView.currentQuestion with
            | none => .failNoCurrentQuestion
            | some _ =>
                if argsIndex = none
                    ∨ argsIndex ≠ some session.quizView.currentQuestionIndex
                then .failIndex
                else if ¬ validateResponse argsResponse then
                  .failResponseInvalid
                else
                  match argsResponse with
                  | .val r => .proceeds r
                  | _ => .failResponseInvalid

/-! ## Derived notions used by the statements -/

/-- The kind (format) of a question body. -/
def QuestionBodyType.kind : QuestionBodyType → QuestionFormat
  | .mc _ _ => .MultipleChoiceFormat
  | .fillIn _ => .FillInFormat

/-- The frequency-map key `updateFrequency` writes for a response:
the stringified choice index for multiple choice, the raw response text
for fill-in. -/
def ResponseType.key : ResponseType → String
  | .mc _ a => toString a
  | .fillIn _ s => s

/-- The sum of all counts in the frequency map (JavaScript addition, so a
`NaN` entry poisons the sum). -/
def Question.frequencySum (q : Question) : JsNum :=
  q.frequency.values.foldl jsAdd (some 0)

/-- One operation on a `Quiz` (the return values are discarded). -/
inductive QuizOp where
  | add (q : Question)
  | advance
  | remove (i : ℤ)
  | replace (i : ℤ) (q : Question)
deriving DecidableEq, Repr

namespace Quiz

/-- Apply one operation to a quiz. -/
def applyOp (qz : Quiz) : QuizOp → Quiz
  | .add q => qz.addQuestion q
  | .advance => (qz.advanceToNextQuestion).1
  | .remove i => (qz.removeQuestion i).1
  | .replace i q => (qz.replaceQuestion i q).1

/-- Apply a sequence of operations to a quiz. -/
def applyOps (qz : Quiz) (ops : List QuizOp) : Quiz :=
  ops.foldl applyOp qz

/-- The index invariant of the specification:
`-1 ≤ currentIndex < len(questions)`. -/
def Inv (qz : Quiz) : Prop :=
  -1 ≤ qz.currentQuestionIndex ∧ qz.currentQuestionIndex < qz.numQuestions

instance (qz : Quiz) : Decidable qz.Inv := by
  unfold Inv
  infer_instance

/-- A sequence of operations is safe when every `remove` it performs
targets an index strictly above the current index at that moment. -/
def safeOps (qz : Quiz) : List QuizOp → Bool
  | [] => true
  | op :: rest =>
      (match op with
        | .remove i => qz.currentQuestionIndex < i
        | _ => true)
      && safeOps (qz.applyOp op) rest

end Quiz

/-! ## Concrete states used by counterexamples and witnesses -/

/-- A parser-shaped multiple-choice question: two choices worth 200 each,
correct answer index 1. -/
def demoMcQuestion : Question :=
  mkMultipleChoiceQuestion "Q" [⟨"c1", 200⟩, ⟨"c2", 200⟩] 1 60

/-- The demo multiple-choice question, started. -/
def demoMcStarted : Question := demoMcQuestion.start

/-- The parse of the fill-in submission of scenario S6:
one answer "Paris" worth 100 points. -/
def demoFillInParsed : Except (List ApiError) Question :=
  fromFillInSubmission (some "Q")
    (some ⟨some .FillInFormat, some [⟨some "Paris", some 100⟩]⟩) (some 60)

/-- The fill-in question of scenario S6 (unwrap of the parse). -/
def demoFillInQuestion : Question :=
  match demoFillInParsed with
  | .ok q => q
  | .error _ => mkFillInQuestion "" [] 0

/-- The demo fill-in question, started. -/
def demoFillInStarted : Question := demoFillInQuestion.start

/-- The state of `demoMcStarted` after the kind-mismatched fill-in
response `{submitter: "u", answer: "x"}` is recorded: the response map
gains the entry, nothing else changes. -/
def demoMcAfterMismatch : Question :=
  { demoMcStarted with
    responses := demoMcStarted.responses.set "u" (.fillIn "u" "x") }

/-- A session in mid-question: owner "o", one joined user "b" (connection
"bid"), the demo multiple-choice question added, the session started and
advanced onto question 0. -/
def demoSession : Session :=
  let s0 := Session.new "SESSIONAA" "o"
  let s1 := (s0.addUser ⟨"b", "bid"⟩).1
  let s2 := { s1 with quiz := s1.quiz.addQuestion demoMcQuestion }
  let s3 := s2.start
  { s3 with quiz := (s3.quiz.advanceToNextQuestion).1 }

/-- A controller whose registry holds exactly `demoSession`. -/
def demoCtrl : SessionController :=
  ⟨SMap.empty.set "SESSIONAA" demoSession⟩

/-- The malformed raw response payload of claim C10: a valid numeric
format discriminator but `answer` and `submitter` left `undefined`. -/
def demoRawResponse : RawResponse := ⟨.val 0, .undef, .undef⟩

/-- The demo fill-in question with an assigned index and one feedback
entry (used to exercise `clone`). -/
def demoFillInWithFeedback : Question :=
  ({ demoFillInQuestion with index := 0 }.addFeedback "u" ⟨2, "hi"⟩).1

/-- The state of `demoMcStarted` after the kind-mismatched fill-in
response `{submitter: "w", answer: "y"}` is recorded. -/
def demoMcAfterMismatchW : Question :=
  { demoMcStarted with
    responses := demoMcStarted.responses.set "w" (.fillIn "w" "y") }

/-- The state of `demoFillInStarted` after the mixed-case response
`{submitter: "u", answer: "pArIs"}`. -/
def demoFillInAfterResponse : Question :=
  match demoFillInStarted.addResponse (.fillIn "u" "pArIs") with
  | .ok q _ => q
  | _ => demoFillInStarted

/-- A multiple-choice submission that is valid in every respect except
that its choice points sum to 1200, above the specification's 1000
ceiling. -/
def demoOverTotalSubmission : MultipleChoiceSubmission :=
  ⟨some .MultipleChoiceFormat,
    some [⟨some "c1", some 600⟩, ⟨some "c2", some 600⟩], some 1⟩

/-- The quiz obtained from the empty quiz by add, advance, then remove of
the current question. -/
def demoQuizAfterRemove : Quiz :=
  Quiz.new.applyOps [.add demoMcQuestion, .advance, .remove 0]

/-- The current question of `demoSession`: the demo question with its
committed index 0, started by the advance. -/
def demoCurrentQuestion : Question := { demoMcQuestion with index := 0 }.start

/-- The session object as `handleDisconnect` leaves it after the owner of
`demoSession` drops. -/
def demoSessionEnded : Session := demoSession.endS

/-- The controller state after the owner of `demoSession` disconnects. -/
def demoAfterDisconnect : SessionController :=
  (demoCtrl.handleDisconnect "o" []).1

/-- The state of `demoMcStarted` after the correct response
`{submitter: "b", answer: 1}`. -/
def demoMcAfterB : Question :=
  match demoMcStarted.addResponse (.mc "b" 1) with
  | .ok q _ => q
  | _ => demoMcStarted

/-! ## Basic lemmas about the map and list embeddings -/

theorem find?_map_replace {α : Type} (k : String) (v : α) (l : List (String × α)) :
    (l.map (fun p => if p.1 == k then (k, v) else p)).find? (fun p => p.1 == k)
      = ((l.find? (fun p => p.1 == k)).map (fun _ => (k, v))) := by
  induction l with
  | nil => rfl
  | cons a l ih =>
      rw [List.map_cons, List.find?_cons, List.find?_cons]
      cases hak : (a.1 == k) with
      | true =>
          rw [if_pos (show true = true from rfl)]
          rw [show ((k, v).1 == k) = true from beq_self_eq_true k]
          rfl
      | false =>
          rw [if_neg (by simp [hak])]
          rw [hak]
          exact ih

theorem find?_map_replace_ne {α : Type} (k j : String) (v : α)
    (hjk : j ≠ k) (l : List (String × α)) :
    (l.map (fun p => if p.1 == k then (k, v) else p)).find? (fun p => p.1 == j)
      = l.find? (fun p => p.1 == j) := by
  induction l with
  | nil => rfl
  | cons a l ih =>
      rw [List.map_cons, List.find?_cons, List.find?_cons]
      cases hak : (a.1 == k) with
      | true =>
          have ha : a.1 = k := by simpa using hak
          have h1 : (k == j) = false := by simp [Ne.symm hjk]
          have h2 : (a.1 == j) = false := by simp [ha, Ne.symm hjk]
          rw [if_pos (show true = true from rfl)]
          rw [show ((k, v).1 == j) = false from h1, h2]
          exact ih
      | false =>
          rw [if_neg (by simp [hak])]
          cases haj : (a.1 == j) with
          | true => rfl
          | false => exact ih

namespace SMap

theorem get?_empty {α : Type} (k : String) :
    (SMap.empty : SMap α).get? k = none := rfl

theorem get?_set_self {α : Type} (m : SMap α) (k : String) (v : α) :
    (m.set k v).get? k = some v := by
  by_cases h : m.has k = true
  · unfold set
    rw [if_pos h]
    show ((m.entries.map (fun p => if p.1 == k then (k, v) else p)).find?
      (fun p => p.1 == k)).map Prod.snd = some v
    rw [find?_map_replace]
    unfold has get? at h
    rcases hf : m.entries.find? (fun p => p.1 == k) with _ | p
    · rw [hf] at h; simp at h
    · simp [hf]
  · unfold set
    rw [if_neg h]
    unfold has get? at h
    rcases hf : m.entries.find? (fun p => p.1 == k) with _ | p
    · show ((m.entries ++ [(k, v)]).find? (fun p => p.1 == k)).map Prod.snd
        = some v
      rw [List.find?_append, hf]
      simp [List.find?]
    · rw [hf] at h; simp at h

theorem get?_set_ne {α : Type} (m : SMap α) (k j : String) (v : α)
    (hjk : j ≠ k) : (m.set k v).get? j = m.get? j := by
  by_cases h : m.has k = true
  · unfold set
    rw [if_pos h]
    show ((m.entries.map (fun p => if p.1 == k then (k, v) else p)).find?
      (fun p => p.1 == j)).map Prod.snd = m.get? j
    rw [find?_map_replace_ne k j v hjk]
    rfl
  · unfold set
    rw [if_neg h]
    show ((m.entries ++ [(k, v)]).find? (fun p => p.1 == j)).map Prod.snd
      = m.get? j
    rw [List.find?_append]
    have h1 : (k == j) = false := by simp [Ne.symm hjk]
    simp [List.find?, h1]
    rfl

theorem get?_delete_self {α : Type} (m : SMap α) (k : String) :
    (m.delete k).get? k = none := by
  have hnone : (m.entries.filter (fun p => p.1 != k)).find? (fun p => p.1 == k)
      = none := by
    rw [List.find?_eq_none]
    intro p hp
    have := List.of_mem_filter hp
    simpa using this
  show ((m.entries.filter (fun p => p.1 != k)).find? (fun p => p.1 == k)).map
    Prod.snd = none
  rw [hnone]
  rfl

theorem has_iff_mem {α : Type} (m : SMap α) (k : String) :
    m.has k = true ↔ k ∈ m.entries.map Prod.fst := by
  unfold has get?
  induction m.entries with
  | nil => simp [List.find?]
  | cons a l ih =>
      rw [List.find?_cons]
      by_cases h : (a.1 == k) = true
      · have ha : a.1 = k := by simpa using h
        simp [h, ha]
      · have ha : ¬ a.1 = k := by simpa using h
        simp only [h]
        rw [List.map_cons, List.mem_cons]
        simp only [ih]
        constructor
        · exact Or.inr
        · rintro (h1 | h1)
          · exact absurd h1.symm ha
          · exact h1

theorem has_eq_false_iff {α : Type} (m : SMap α) (k : String) :
    m.has k = false ↔ k ∉ m.entries.map Prod.fst := by
  rw [← has_iff_mem]
  cases h : m.has k <;> simp

end SMap

theorem listGetInt_nonneg {α : Type} (l : List α) (i : ℤ) (h : 0 ≤ i) :
    listGetInt l i = l.get? i.toNat := by
  unfold listGetInt
  rw [if_neg (not_lt.mpr h)]

theorem listGetInt_some_bounds {α : Type} {l : List α} {i : ℤ} {a : α}
    (h : listGetInt l i = some a) : 0 ≤ i ∧ i.toNat < l.length := by
  unfold listGetInt at h
  by_cases hi : i < 0
  · rw [if_pos hi] at h; exact absurd h (by simp)
  · rw [if_neg hi] at h
    exact ⟨not_lt.mp hi, (List.get?_eq_some.mp h).choose⟩

theorem listModifyInt_length {α : Type} (l : List α) (i : ℤ) (f : α → α) :
    (listModifyInt l i f).length = l.length := by
  unfold listModifyInt
  by_cases hi : i < 0
  · rw [if_pos hi]
  · rw [if_neg hi]
    rcases hg : l.get? i.toNat with _ | a
    · rfl
    · exact List.length_set l i.toNat (f a)

theorem listModifyInt_get_self {α : Type} {l : List α} {i : ℤ} {a : α}
    (f : α → α) (h : listGetInt l i = some a) :
    listGetInt (listModifyInt l i f) i = some (f a) := by
  obtain ⟨h0, hlt⟩ := listGetInt_some_bounds h
  rw [listGetInt_nonneg _ _ h0] at h ⊢
  unfold listModifyInt
  rw [if_neg (not_lt.mpr h0), h]
  rw [List.get?_eq_getElem?]
  exact List.getElem?_set_self hlt

/-! ## Claim theorems -/

/-- Claim C2: grading is a deterministic function of `(body, r)` (it reads
no other question state); it returns 0 on a kind mismatch; a
multiple-choice response earns `choices[answer].points` exactly when it
names the correct answer (which the claim presumes to be a valid index)
and 0 otherwise; fill-in grading looks up the lowercased response text
in the lowercased answer map, so it is case-insensitive in the response
text. -/
theorem gradeResponse_spec :
    (∀ (q₁ q₂ : Question) (r : ResponseType), q₁.body = q₂.body →
        q₁.gradeResponse r = q₂.gradeResponse r)
  ∧ (∀ (q : Question) (r : ResponseType), r.type ≠ q.body.kind →
        q.gradeResponse r = some 0)
  ∧ (∀ (q : Question) (choices : List MultipleChoiceAnswer) (answer : ℤ)
        (s : String) (h : answer.toNat < choices.length),
        q.body = .mc choices answer → 0 ≤ answer →
        q.gradeResponse (.mc s answer)
          = some (choices.get ⟨answer.toNat, h⟩).points)
  ∧ (∀ (q : Question) (choices : List MultipleChoiceAnswer) (answer : ℤ)
        (s : String) (a : ℤ), q.body = .mc choices answer → a ≠ answer →
        q.gradeResponse (.mc s a) = some 0)
  ∧ (∀ (q : Question) (answers : SMap FillInAnswer) (s a : String),
        q.body = .fillIn answers →
        q.gradeResponse (.fillIn s a)
          = some (((answers.get? (jsToLower a)).map (·.points)).getD 0))
  ∧ (∀ (q : Question) (s₁ s₂ a₁ a₂ : String),
        jsToLower a₁ = jsToLower a₂ →
        q.gradeResponse (.fillIn s₁ a₁) = q.gradeResponse (.fillIn s₂ a₂)) := by
  refine ⟨?_, ?_, ?_, ?_, ?_, ?_⟩
  · intro q₁ q₂ r h
    unfold Question.gradeResponse
    rw [h]
  · intro q r h
    unfold Question.gradeResponse
    rcases r with ⟨s, a⟩ | ⟨s, a⟩ <;>
      rcases hb : q.body with ⟨choices, answer⟩ | answers
    · rw [hb] at h
      exact absurd rfl h
    · rfl
    · rfl
    · rw [hb] at h
      exact absurd rfl h
  · intro q choices answer s h hb h0
    unfold Question.gradeResponse
    rw [hb]
    dsimp only
    rw [if_pos rfl, listGetInt_nonneg _ _ h0, List.get?_eq_get h]
    rfl
  · intro q choices answer s a hb hne
    unfold Question.gradeResponse
    rw [hb]
    dsimp only
    rw [if_neg hne]
  · intro q answers s a hb
    unfold Question.gradeResponse
    rw [hb]
    dsimp only
    rcases hg : answers.get? (jsToLower a) with _ | x <;> simp [hg]
  · intro q s₁ s₂ a₁ a₂ h
    unfold Question.gradeResponse
    rcases hb : q.body with ⟨choices, answer⟩ | answers
    · rfl
    · dsimp only
      rw [h]

/-- Witness for `gradeResponse_spec`: each hypothesised conjunct applied
at a concrete question and response. -/
theorem gradeResponse_spec_witness :
    demoMcQuestion.gradeResponse (.mc "b" 1) = some 200
  ∧ demoMcQuestion.gradeResponse (.fillIn "b" "x") = some 0
  ∧ demoMcQuestion.gradeResponse (.mc "b" 0) = some 0
  ∧ demoFillInQuestion.gradeResponse (.fillIn "u" "PARIS")
      = demoFillInQuestion.gradeResponse (.fillIn "v" "paris")
  ∧ demoFillInQuestion.gradeResponse (.fillIn "u" "pArIs") = some 100 := by
  refine ⟨?_, ?_, ?_, ?_, ?_⟩
  · rw [gradeResponse_spec.2.2.1 demoMcQuestion [⟨"c1", 200⟩, ⟨"c2", 200⟩] 1
      "b" (by decide) (by decide) (by decide)]
    rfl
  · exact gradeResponse_spec.2.1 demoMcQuestion (.fillIn "b" "x") (by decide)
  · exact gradeResponse_spec.2.2.2.1 demoMcQuestion [⟨"c1", 200⟩, ⟨"c2", 200⟩]
      1 "b" 0 (by decide) (by decide)
  · exact gradeResponse_spec.2.2.2.2.2 demoFillInQuestion "u" "v" "PARIS"
      "paris" (by decide)
  · rw [gradeResponse_spec.2.2.2.2.1 demoFillInQuestion
      (SMap.empty.set "paris" ⟨"Paris", 100⟩) "u" "pArIs" (by decide)]
    decide

theorem updateFrequency_responses (q : Question) (r : ResponseType) :
    (q.updateFrequency r).responses = q.responses := by
  unfold Question.updateFrequency
  rcases r with ⟨s, a⟩ | ⟨s, a⟩ <;>
    rcases hb : q.body with ⟨choices, answer⟩ | answers <;>
    dsimp only <;> (rcases q.frequency.get? _ with _ | v <;> rfl)

theorem updateFrequency_firstCorrect (q : Question) (r : ResponseType) :
    (q.updateFrequency r).firstCorrect = q.firstCorrect := by
  unfold Question.updateFrequency
  rcases r with ⟨s, a⟩ | ⟨s, a⟩ <;>
    rcases hb : q.body with ⟨choices, answer⟩ | answers <;>
    dsimp only <;> (rcases q.frequency.get? _ with _ | v <;> rfl)

theorem updateFrequency_freq_mismatch (q : Question) (r : ResponseType)
    (h : r.type ≠ q.body.kind) :
    (q.updateFrequency r).frequency = q.frequency := by
  unfold Question.updateFrequency
  rcases r with ⟨s, a⟩ | ⟨s, a⟩ <;>
    rcases hb : q.body with ⟨choices, answer⟩ | answers
  · rw [hb] at h; exact absurd rfl h
  · rfl
  · rfl
  · rw [hb] at h; exact absurd rfl h

theorem updateFrequency_freq_match_some (q : Question) (r : ResponseType)
    (hk : r.type = q.body.kind) (v : JsNum)
    (hv : q.frequency.get? r.key = some v) :
    (q.updateFrequency r).frequency = q.frequency.set r.key (jsAdd1 v) := by
  unfold Question.updateFrequency
  rcases r with ⟨s, a⟩ | ⟨s, a⟩ <;>
    rcases hb : q.body with ⟨choices, answer⟩ | answers
  · dsimp only
    rw [show (ResponseType.mc s a).key = toString a from rfl] at hv
    rw [hv]
    rfl
  · rw [hb] at hk
    simp [ResponseType.type, QuestionBodyType.kind] at hk
  · rw [hb] at hk
    simp [ResponseType.type, QuestionBodyType.kind] at hk
  · dsimp only
    rw [show (ResponseType.fillIn s a).key = a from rfl] at hv
    rw [hv]
    rfl

theorem updateFrequency_freq_fillIn_missing (q : Question) (s a : String)
    (answers : SMap FillInAnswer) (hb : q.body = .fillIn answers)
    (hv : q.frequency.get? a = none) :
    (q.updateFrequency (.fillIn s a)).frequency
      = q.frequency.set a (some 1) := by
  unfold Question.updateFrequency
  rw [hb]
  dsimp only
  rw [hv]

theorem updateFrequency_freq_match_set (q : Question) (r : ResponseType)
    (hk : r.type = q.body.kind) :
    ∃ w : JsNum, (q.updateFrequency r).frequency
      = q.frequency.set r.key w := by
  unfold Question.updateFrequency
  rcases r with ⟨s, a⟩ | ⟨s, a⟩ <;>
    rcases hb : q.body with ⟨choices, answer⟩ | answers
  · dsimp only
    rcases hv : q.frequency.get? (toString a) with _ | v
    · exact ⟨none, rfl⟩
    · exact ⟨jsAdd1 v, rfl⟩
  · rw [hb] at hk
    simp [ResponseType.type, QuestionBodyType.kind] at hk
  · rw [hb] at hk
    simp [ResponseType.type, QuestionBodyType.kind] at hk
  · dsimp only
    rcases hv : q.frequency.get? a with _ | v
    · exact ⟨some 1, rfl⟩
    · exact ⟨jsAdd1 v, rfl⟩

/-- Common part of the success case of `addResponse`: for the intermediate
question `qq` (the original with the response recorded and possibly
`firstCorrect` updated), `updateFrequency` yields the claimed response
and frequency fields. -/
theorem addResponse_ok_fields (q qq : Question) (r : ResponseType)
    (hbody : qq.body = q.body) (hfreq : qq.frequency = q.frequency)
    (hresp : qq.responses = q.responses.set r.submitter r) :
      ((qq.updateFrequency r).responses.get? r.submitter = some r)
    ∧ (∀ s, s ≠ r.submitter →
        (qq.updateFrequency r).responses.get? s = q.responses.get? s)
    ∧ (r.type ≠ q.body.kind → (qq.updateFrequency r).frequency = q.frequency)
    ∧ (r.type = q.body.kind →
          (∀ n : ℤ, q.frequency.get? r.key = some (some n) →
            (qq.updateFrequency r).frequency.get? r.key = some (some (n + 1)))
        ∧ (∀ k, k ≠ r.key →
            (qq.updateFrequency r).frequency.get? k = q.frequency.get? k)
        ∧ (q.body.kind = .FillInFormat → q.frequency.get? r.key = none →
            (qq.updateFrequency r).frequency.get? r.key = some (some 1))) := by
  refine ⟨?_, ?_, ?_, ?_⟩
  · rw [updateFrequency_responses, hresp]
    exact SMap.get?_set_self _ _ _
  · intro s hs
    rw [updateFrequency_responses, hresp]
    exact SMap.get?_set_ne _ _ _ _ hs
  · intro hmm
    rw [updateFrequency_freq_mismatch qq r (by rw [hbody]; exact hmm), hfreq]
  · intro hk
    refine ⟨?_, ?_, ?_⟩
    · intro n hn
      rw [updateFrequency_freq_match_some qq r (by rw [hbody]; exact hk)
        (some n) (by rw [hfreq]; exact hn)]
      rw [SMap.get?_set_self]
      rfl
    · intro k hkne
      obtain ⟨w, hw⟩ :=
        updateFrequency_freq_match_set qq r (by rw [hbody]; exact hk)
      rw [hw, SMap.get?_set_ne _ _ _ _ hkne, hfreq]
    · intro hfi hmiss
      rcases r with ⟨s, a⟩ | ⟨s, a⟩
      · rw [hfi] at hk
        simp [ResponseType.type] at hk
      · rcases hbq : q.body with ⟨choices, answer⟩ | answers
        · rw [hbq] at hfi
          simp [QuestionBodyType.kind] at hfi
        · rw [updateFrequency_freq_fillIn_missing qq s a answers
            (by rw [hbody]; exact hbq) (by rw [hfreq]; exact hmiss)]
          rw [show (ResponseType.fillIn s a).key = a from rfl]
          rw [SMap.get?_set_self]

/-- Claim C1 (amended): `addResponse` fails with `NotStarted`, `Ended`,
`Duplicate` in that order; otherwise it records the response under its
submitter, returns the graded points, and sets `firstCorrect` to the
submitter exactly when it was unset and the points are positive. The
frequency map gains +1 at the response's key only when the response's
kind matches the body's (at an existing count, or lazily from 0 for an
unseen fill-in text); a kind-mismatched response leaves the frequency
map unchanged although the response is still recorded. -/
theorem addResponse_amended (q : Question) (r : ResponseType) :
    (q.isStarted = false → q.addResponse r = .thrown .notStarted)
  ∧ (q.isStarted = true → q.hasEnded = true →
      q.addResponse r = .thrown .ended)
  ∧ (q.isStarted = true → q.hasEnded = false →
      q.responses.has r.submitter = true →
      q.addResponse r = .thrown .duplicate)
  ∧ (∀ (q₂ : Question) (p : ℤ), q.addResponse r = .ok q₂ p →
        q.gradeResponse r = some p
      ∧ q₂.responses.get? r.submitter = some r
      ∧ (∀ s, s ≠ r.submitter → q₂.responses.get? s = q.responses.get? s)
      ∧ q₂.firstCorrect = (if q.firstCorrect = none ∧ 0 < p
          then some r.submitter else q.firstCorrect)
      ∧ (r.type ≠ q.body.kind → q₂.frequency = q.frequency)
      ∧ (r.type = q.body.kind →
            (∀ n : ℤ, q.frequency.get? r.key = some (some n) →
              q₂.frequency.get? r.key = some (some (n + 1)))
          ∧ (∀ k, k ≠ r.key → q₂.frequency.get? k = q.frequency.get? k)
          ∧ (q.body.kind = .FillInFormat → q.frequency.get? r.key = none →
              q₂.frequency.get? r.key = some (some 1)))) := by
  refine ⟨?_, ?_, ?_, ?_⟩
  · intro h
    simp [Question.addResponse, h]
  · intro h1 h2
    simp [Question.addResponse, h1, h2]
  · intro h1 h2 h3
    simp [Question.addResponse, h1, h2, h3]
  · intro q₂ p hok
    unfold Question.addResponse at hok
    split_ifs at hok with h1 h2 h3
    · dsimp only at hok
      rcases hg : Question.gradeResponse
          { q with responses := q.responses.set r.submitter r } r
        with _ | points
      · rw [hg] at hok
        simp at hok
      · rw [hg] at hok
        dsimp only at hok
        have hgq : q.gradeResponse r = some points := hg
        injection hok with hq hp
        subst hp
        subst hq
        by_cases hc : 0 < points ∧ q.firstCorrect = none
        · simp only [if_pos hc]
          obtain ⟨f1, f2, f3, f4⟩ := addResponse_ok_fields q
            { q with
              responses := q.responses.set r.submitter r,
              firstCorrect := some r.submitter } r rfl rfl rfl
          refine ⟨hgq, f1, f2, ?_, f3, f4⟩
          rw [updateFrequency_firstCorrect, if_pos ⟨hc.2, hc.1⟩]
        · simp only [if_neg hc]
          obtain ⟨f1, f2, f3, f4⟩ := addResponse_ok_fields q
            { q with responses := q.responses.set r.submitter r } r rfl rfl rfl
          refine ⟨hgq, f1, f2, ?_, f3, f4⟩
          rw [updateFrequency_firstCorrect,
            if_neg (fun hcc => hc ⟨hcc.2, hcc.1⟩)]

/-- Witness for `addResponse_amended`: the guard clauses and the success
clause applied at concrete questions and responses. -/
theorem addResponse_amended_witness :
    demoMcQuestion.addResponse (.mc "b" 1) = .thrown .notStarted
  ∧ (demoMcStarted.endQ).addResponse (.mc "b" 1) = .thrown .ended
  ∧ demoMcAfterMismatch.addResponse (.fillIn "u" "z") = .thrown .duplicate
  ∧ demoMcAfterB.responses.get? "b" = some (.mc "b" 1)
  ∧ demoMcAfterB.firstCorrect = some "b"
  ∧ demoMcAfterB.frequency.get? "1" = some (some 1) := by
  obtain ⟨g1, g2, g3, g4, g5, g6⟩ :=
    (addResponse_amended demoMcStarted (.mc "b" 1)).2.2.2 demoMcAfterB 200
      (by decide)
  refine ⟨?_, ?_, ?_, g2, ?_, ?_⟩
  · exact (addResponse_amended demoMcQuestion (.mc "b" 1)).1 (by decide)
  · exact (addResponse_amended demoMcStarted.endQ (.mc "b" 1)).2.1
      (by decide) (by decide)
  · exact (addResponse_amended demoMcAfterMismatch (.fillIn "u" "z")).2.2.1
      (by decide) (by decide) (by decide)
  · rw [g4]
    decide
  · exact (g6 (by decide)).1 0 (by decide)

/-- Claim C10: a response payload whose `type` is a valid numeric
`QuestionFormat` but whose `answer` and `submitter` are `undefined`
passes `validateResponse` (only strict `!== null` comparisons are made),
and therefore passes the controller's payload validation and reaches
`Question.addResponse` instead of being rejected with a response error
(while a `null` field is rejected). -/
theorem validateResponse_undefined_passes :
    validateResponse (.val demoRawResponse) = true
  ∧ demoCtrl.addQuestionResponseChecks "bid" (some "SESSIONAA") (some "b")
      (some 0) (.val demoRawResponse) = .proceeds demoRawResponse
  ∧ validateResponse (.val ⟨.val 0, .nullv, .val (.str "x")⟩) = false := by
  decide

/-- Claim C3 (code evaluation at the failing input): the parser pre-seeds
the fill-in frequency map at the lowercased key "paris", but a
successful mixed-case response "pArIs" increments the RAW key instead,
so `frequencyOf` — which reads the lowercased key — still returns 0
right after the response. -/
theorem fillIn_frequency_key_mismatch :
    demoFillInParsed = .ok (mkFillInQuestion "Q" [⟨"Paris", 100⟩] 60)
  ∧ demoFillInStarted.frequency.get? "paris" = some (some 0)
  ∧ demoFillInStarted.addResponse (.fillIn "u" "pArIs")
      = .ok demoFillInAfterResponse 100
  ∧ demoFillInAfterResponse.frequency.get? "paris" = some (some 0)
  ∧ demoFillInAfterResponse.frequency.get? "pArIs" = some (some 1)
  ∧ demoFillInAfterResponse.frequencyOf (.fillIn "u" "pArIs") = some 0 :=
  ⟨by rfl, by decide, by decide, by decide, by decide, by decide⟩

/-- Claim C4 (code evaluation at the failing input): a started
multiple-choice question accepts a kind-mismatched fill-in response
(`addResponse` succeeds with 0 points), records it, and leaves the
frequency map untouched, so `|responses| = 1` while the frequency counts
sum to 0. -/
theorem responses_frequency_sum_diverge :
    demoMcStarted.addResponse (.fillIn "u" "x") = .ok demoMcAfterMismatch 0
  ∧ demoMcAfterMismatch.numResponses = 1
  ∧ demoMcAfterMismatch.frequencySum = some 0
  ∧ demoMcAfterMismatch.frequencySum
      ≠ some (demoMcAfterMismatch.numResponses : ℤ) := by
  decide

/-- Claim C1 (counterexample): `addResponse` of a kind-mismatched response
succeeds — it records the response and returns the graded 0 points — but
increments NO frequency key at all, contradicting the claim that every
accepted response bumps the frequency map by +1 at its key. -/
theorem addResponse_mismatch_skips_frequency :
    demoMcStarted.addResponse (.fillIn "w" "y") = .ok demoMcAfterMismatchW 0
  ∧ demoMcAfterMismatchW.frequency = demoMcStarted.frequency := by
  decide

/-- Claim C5 (counterexample): on the same mid-question state, the manual
end-question path broadcasts `QuestionEnded` to the room EXCLUDING the
owner, while the timer path broadcasts to the whole room (the owner
included) — the recipient sets differ, refuting "the same set of
recipients". -/
theorem questionEnded_recipients_differ :
    (demoCtrl.endCurrentQuestion "o" (some "SESSIONAA") (some 0)).2.2
      = [⟨.roomExcept "SESSIONAA" "o", .QuestionEnded, some "SESSIONAA",
          .questionEnded 0⟩]
  ∧ (demoCtrl.questionOnTimeout "SESSIONAA" 0).2
      = [⟨.room "SESSIONAA", .QuestionEnded, some "SESSIONAA",
          .questionEnded 0⟩]
  ∧ EmitTarget.roomExcept "SESSIONAA" "o" ≠ EmitTarget.room "SESSIONAA" := by
  decide

/-- Claim C5 (amended): on a started, un-ended session whose current
question sits at its committed index `i`, the manual end-question path
and the timer path leave the registry in the SAME state — the current
question ended in place, hence the identical terminal state
`isStarted ∧ hasEnded` — and each emits exactly one `QuestionEnded`
broadcast with the same event name and payload `{question: i}`; but the
recipients differ: the manual path excludes the owner from the room
broadcast (the owner gets the acknowledgement instead) while the timer
path broadcasts to the whole room. -/
theorem endQuestion_paths_amended (ctrl : SessionController)
    (sessId : String) (s : Session) (i : ℤ) (q : Question)
    (hget : ctrl.sessions.get? sessId = some s) (hid : s.id = sessId)
    (hstart : s.isStarted = true) (hend : s.hasEnded = false)
    (hcur : s.quiz.currentQuestionIndex = i)
    (hq : listGetInt s.quiz.questions i = some q) (hqi : q.index = i)
    (hqs : q.isStarted = true) :
    (ctrl.endCurrentQuestion s.owner (some sessId) (some i)).2.2
      = [⟨.roomExcept sessId s.owner, .QuestionEnded, some sessId,
          .questionEnded i⟩]
  ∧ (ctrl.questionOnTimeout sessId i).2
      = [⟨.room sessId, .QuestionEnded, some sessId, .questionEnded i⟩]
  ∧ (ctrl.endCurrentQuestion s.owner (some sessId) (some i)).2.1
      = .success .EndQuestion (some sessId) .noData
  ∧ (ctrl.endCurrentQuestion s.owner (some sessId) (some i)).1
      = (ctrl.questionOnTimeout sessId i).1
  ∧ (∀ s2, (ctrl.questionOnTimeout sessId i).1.sessions.get? sessId
        = some s2 → listGetInt s2.quiz.questions i = some q.endQ)
  ∧ q.endQ.isStarted = true
  ∧ q.endQ.hasEnded = true := by
  have hbounds := listGetInt_some_bounds hq
  have hview : s.quizView = s.quiz := by
    unfold Session.quizView
    rw [hend]
    rfl
  have hcurq : s.quiz.currentQuestion = some q := by
    unfold Quiz.currentQuestion
    rw [hcur]
    rw [if_neg (by
      unfold Quiz.numQuestions
      omega)]
    exact hq
  have hmanual : ctrl.endCurrentQuestion s.owner (some sessId) (some i)
      = (⟨ctrl.sessions.set sessId
          { s with quiz := ⟨listModifyInt s.quiz.questions i Question.endQ,
            i⟩ }⟩,
        .success .EndQuestion (some sessId) .noData,
        [⟨.roomExcept sessId s.owner, .QuestionEnded, some sessId,
          .questionEnded i⟩]) := by
    unfold SessionController.endCurrentQuestion
    simp only [Option.getD_some]
    rw [hget]
    dsimp only
    rw [if_neg (show ¬ (s.owner ≠ s.owner) by simp)]
    rw [if_neg (by rw [hstart, hend]; simp)]
    rw [hview, hcurq]
    dsimp only
    rw [if_neg (show ¬ (some i ≠ some s.quiz.currentQuestionIndex) by
      rw [hcur]
      simp)]
    rw [hcur, hid]
  have htimer : ctrl.questionOnTimeout sessId i
      = (⟨ctrl.sessions.set sessId
          { s with quiz := ⟨listModifyInt s.quiz.questions i Question.endQ,
            i⟩ }⟩,
        [⟨.room sessId, .QuestionEnded, some sessId,
          .questionEnded i⟩]) := by
    unfold SessionController.questionOnTimeout
    rw [hget]
    dsimp only
    rw [hq]
    dsimp only
    rw [hqi, hcur]
  have hendq : q.endQ = { q with hasEnded := true } := by
    unfold Question.endQ
    rw [hqs]
    rfl
  refine ⟨by rw [hmanual], by rw [htimer], by rw [hmanual],
    by rw [hmanual, htimer], ?_, by rw [hendq, hqs], by rw [hendq]⟩
  intro s2 hs2
  rw [htimer] at hs2
  dsimp only at hs2
  rw [SMap.get?_set_self] at hs2
  injection hs2 with hs2
  rw [← hs2]
  exact listModifyInt_get_self Question.endQ hq

/-- Witness for `endQuestion_paths_amended`: the theorem applied to the
demo controller mid-question; the two paths agree on the payload and the
post-state but differ in recipients. -/
theorem endQuestion_paths_amended_witness :
    (demoCtrl.endCurrentQuestion "o" (some "SESSIONAA") (some 0)).2.2
      = [⟨.roomExcept "SESSIONAA" "o", .QuestionEnded, some "SESSIONAA",
          .questionEnded 0⟩]
  ∧ (demoCtrl.questionOnTimeout "SESSIONAA" 0).2
      = [⟨.room "SESSIONAA", .QuestionEnded, some "SESSIONAA",
          .questionEnded 0⟩]
  ∧ (demoCtrl.endCurrentQuestion "o" (some "SESSIONAA") (some 0)).1
      = (demoCtrl.questionOnTimeout "SESSIONAA" 0).1
  ∧ demoCurrentQuestion.endQ.isStarted = true
  ∧ demoCurrentQuestion.endQ.hasEnded = true := by
  obtain ⟨w1, w2, w3, w4, w5, w6, w7⟩ :=
    endQuestion_paths_amended demoCtrl "SESSIONAA" demoSession 0
      demoCurrentQuestion (by decide) (by decide) (by decide) (by decide)
      (by decide) (by decide) (by decide) (by decide)
  exact ⟨w1, w2, w4, w6, w7⟩

/-- Claim C6 (counterexample): when the owner of a live session with a
started current question disconnects, the controller removes the session,
broadcasts `SessionEnded` and forces the room empty — but `session.end()`
only flags the session, so the current question is still
`isStarted ∧ ¬hasEnded`: its pending timer was NOT cancelled. A
subsequent join with that id fails with a session error. -/
theorem disconnect_leaves_timer_pending :
    (demoCtrl.handleDisconnect "o" []).2.1
      = [⟨.room "SESSIONAA", .SessionEnded, some "SESSIONAA", .noData⟩]
  ∧ (demoCtrl.handleDisconnect "o" []).2.2.1 = [.socketsLeave "SESSIONAA"]
  ∧ (demoCtrl.handleDisconnect "o" []).2.2.2 = some demoSessionEnded
  ∧ demoAfterDisconnect.sessions.get? "SESSIONAA" = none
  ∧ listGetInt demoSessionEnded.quiz.questions 0 = some demoCurrentQuestion
  ∧ demoCurrentQuestion.isStarted = true
  ∧ demoCurrentQuestion.hasEnded = false
  ∧ (demoAfterDisconnect.addUserToSession "cid" (some "SESSIONAA")
      (some "c")).2.1
      = .failure .JoinSession (some "SESSIONAA")
          (some [⟨"session", .str "SESSIONAA"⟩]) := by
  decide

/-- Claim C6 (amended): when a connection owning a live session
disconnects, the controller calls `session.end()` — which only marks the
session ended and does NOT touch the current question, so a pending
question timer is not cancelled — removes the session from the registry,
broadcasts `SessionEnded` to the room and forces every remaining member
out; afterwards any join request with that session id fails with a
session-unknown error. -/
theorem disconnect_amended (ctrl : SessionController) (oid sessId : String)
    (s : Session) (rooms : List String)
    (hfind : ctrl.sessions.entries.find? (fun p => p.2.owner == oid)
      = some (sessId, s))
    (hid : s.id = sessId) :
    ctrl.handleDisconnect oid rooms
      = (⟨ctrl.sessions.delete sessId⟩,
         [⟨.room sessId, .SessionEnded, some sessId, .noData⟩],
         [.socketsLeave sessId],
         some s.endS)
  ∧ s.endS.quiz = s.quiz
  ∧ s.endS.isStarted = s.isStarted
  ∧ s.endS.hasEnded = true
  ∧ (∀ callerId name : String,
      (SessionController.addUserToSession ⟨ctrl.sessions.delete sessId⟩
        callerId (some sessId) (some name)).2.1
      = .failure .JoinSession (some sessId)
          (some [⟨"session", .str sessId⟩])) := by
  refine ⟨?_, rfl, rfl, rfl, ?_⟩
  · unfold SessionController.handleDisconnect
    rw [hfind]
    dsimp only
    rw [hid]
  · intro callerId name
    unfold SessionController.addUserToSession
    simp only [Option.getD_some]
    rw [SMap.get?_delete_self]

/-- Witness for `disconnect_amended`: the demo owner disconnect, with the
surviving (unregistered) session object still holding its started,
un-ended current question, and a concrete join that fails afterwards. -/
theorem disconnect_amended_witness :
    demoCtrl.handleDisconnect "o" []
      = (⟨demoCtrl.sessions.delete "SESSIONAA"⟩,
         [⟨.room "SESSIONAA", .SessionEnded, some "SESSIONAA", .noData⟩],
         [.socketsLeave "SESSIONAA"],
         some demoSession.endS)
  ∧ demoSession.endS.quiz = demoSession.quiz
  ∧ (SessionController.addUserToSession
      ⟨demoCtrl.sessions.delete "SESSIONAA"⟩ "cid" (some "SESSIONAA")
      (some "c")).2.1
      = .failure .JoinSession (some "SESSIONAA")
          (some [⟨"session", .str "SESSIONAA"⟩]) := by
  obtain ⟨w1, w2, w3, w4, w5⟩ :=
    disconnect_amended demoCtrl "o" "SESSIONAA" demoSession [] (by decide)
      (by decide)
  exact ⟨w1, w2, w5 "cid" "c"⟩

/-- Claim C7 (counterexample): a multiple-choice submission whose choice
points total 1200 — far above the specification's 1000 ceiling — is
ACCEPTED by the parser, because `validateQuestionPoints` checks only the
lower bound of 100 in this revision. -/
theorem parser_accepts_total_above_1000 :
    fromMultipleChoiceSubmission (some "Q") (some demoOverTotalSubmission)
      (some 60)
      = .ok (mkMultipleChoiceQuestion "Q" [⟨"c1", 600⟩, ⟨"c2", 600⟩] 1 60)
  ∧ (mkMultipleChoiceQuestion "Q" [⟨"c1", 600⟩, ⟨"c2", 600⟩] 1 60).totalPoints
      = 1200 :=
  ⟨by rfl, by decide⟩

theorem mcValidateStep_valid (l : List (ℕ × MultipleChoiceSubmissionAnswer))
    (hvalid : ∀ p ∈ l, (∃ s, p.2.text = some s ∧ s.length ≠ 0)
      ∧ (∃ pt, p.2.points = some pt ∧ 0 ≤ pt)) (errs : List ApiError)
    (t : ℤ) :
    l.foldl mcValidateStep (errs, some t)
      = (errs, some (t + (l.map (fun p => p.2.points.getD 0)).sum)) := by
  induction l generalizing errs t with
  | nil => simp
  | cons p rest ih =>
      obtain ⟨⟨s, hs, hslen⟩, pt, hpt, hpt0⟩ :=
        hvalid p (List.mem_cons_self _ _)
      obtain ⟨i, choice⟩ := p
      rw [List.foldl_cons]
      have hstep : mcValidateStep (errs, some t) (i, choice)
          = (errs, some (t + pt)) := by
        unfold mcValidateStep
        dsimp only
        rw [hs, hpt]
        dsimp only
        rw [if_neg hslen, if_neg (not_lt.mpr hpt0)]
        simp
      rw [hstep,
        ih (fun p hp => hvalid p (List.mem_cons_of_mem _ hp)) errs (t + pt)]
      rw [List.map_cons, List.sum_cons]
      have : choice.points.getD 0 = pt := by rw [hpt]; rfl
      rw [this, add_assoc]

theorem mc_validateBody_valid (choices : List MultipleChoiceSubmissionAnswer)
    (answer : ℤ)
    (hlen : 2 ≤ choices.length ∧ choices.length ≤ 4)
    (hch : ∀ c ∈ choices, (∃ s, c.text = some s ∧ s.length ≠ 0)
        ∧ (∃ pt, c.points = some pt ∧ 0 ≤ pt))
    (hans : 0 ≤ answer ∧ answer < (choices.length : ℤ)) :
    MultipleChoiceQuestion.validateBody
      ⟨some .MultipleChoiceFormat, some choices, some answer⟩
      = validateQuestionPoints
          ((choices.map (fun c => c.points.getD 0)).sum) := by
  unfold MultipleChoiceQuestion.validateBody
  dsimp only
  rw [if_neg (by omega)]
  rw [mcValidateStep_valid choices.enum
    (fun p hp => hch p.2 (List.snd_mem_of_mem_enum hp)) [] 0]
  have henum : (choices.enum.map (fun p => p.2.points.getD 0)).sum
      = (choices.map (fun c => c.points.getD 0)).sum := by
    rw [show (fun (p : ℕ × MultipleChoiceSubmissionAnswer) =>
      p.2.points.getD 0) = (fun c : MultipleChoiceSubmissionAnswer =>
        c.points.getD 0) ∘ Prod.snd from rfl]
    rw [← List.map_map, List.enum_map_snd]
  dsimp only
  rw [henum, zero_add]
  rw [if_neg (by
    push_neg
    refine ⟨by omega, ?_⟩
    have : ((choices.length : ℤ) ≤ answer : Bool) = false := by
      simp
      omega
    rw [this]
    simp)]
  simp

/-- Claim C7 (amended): for a multiple-choice submission with valid text,
valid time limit, 2–4 choices each having non-empty text and points ≥ 0,
and a valid answer index, the parser accepts iff the points total at
least 100; a below-100 total is rejected with a `totalPoints` error; NO
upper bound is enforced, so totals above 1000 are accepted (see the
counterexample). -/
theorem mc_parser_accepts_iff (text : String) (tl : ℤ)
    (choices : List MultipleChoiceSubmissionAnswer) (answer : ℤ)
    (htext : text.length ≠ 0)
    (htl : 60 ≤ tl ∧ tl ≤ 300)
    (hlen : 2 ≤ choices.length ∧ choices.length ≤ 4)
    (hch : ∀ c ∈ choices, (∃ s, c.text = some s ∧ s.length ≠ 0)
        ∧ (∃ pt, c.points = some pt ∧ 0 ≤ pt))
    (hans : 0 ≤ answer ∧ answer < (choices.length : ℤ)) :
    (parseOk (fromMultipleChoiceSubmission (some text)
        (some ⟨some .MultipleChoiceFormat, some choices, some answer⟩)
        (some tl)) = true
      ↔ 100 ≤ (choices.map (fun c => c.points.getD 0)).sum)
  ∧ ((choices.map (fun c => c.points.getD 0)).sum < 100 →
      fromMultipleChoiceSubmission (some text)
        (some ⟨some .MultipleChoiceFormat, some choices, some answer⟩)
        (some tl)
      = .error [⟨"totalPoints",
          .num ((choices.map (fun c => c.points.getD 0)).sum)⟩]) := by
  have hmain : fromMultipleChoiceSubmission (some text)
      (some ⟨some .MultipleChoiceFormat, some choices, some answer⟩)
      (some tl)
      = if h : validateQuestionPoints
          ((choices.map (fun c => c.points.getD 0)).sum) = []
        then .ok (mkMultipleChoiceQuestion text
          (choices.map (fun c => ⟨c.text.getD "", c.points.getD 0⟩))
          answer tl)
        else .error (validateQuestionPoints
          ((choices.map (fun c => c.points.getD 0)).sum)) := by
    have hqt : validateQuestionText text = [] := by
      unfold validateQuestionText
      rw [if_neg htext]
    have hqtl : validateQuestionTimeLimit tl = [] := by
      unfold validateQuestionTimeLimit
      rw [if_neg (by omega)]
    unfold fromMultipleChoiceSubmission
    dsimp only
    rw [if_neg (by simp [validateSubmission])]
    rw [mc_validateBody_valid choices answer hlen hch hans, hqt, hqtl]
    simp only [List.append_nil]
    split_ifs with h
    · rfl
    · rfl
  constructor
  · rw [hmain]
    constructor
    · intro hOk
      by_contra hlt
      rw [dif_neg (by
        unfold validateQuestionPoints
        rw [if_pos (by omega)]
        simp)] at hOk
      simp [parseOk] at hOk
    · intro hge
      rw [dif_pos (by
        unfold validateQuestionPoints
        rw [if_neg (by omega)])]
      rfl
  · intro hlt
    rw [hmain]
    rw [dif_neg (by
      unfold validateQuestionPoints
      rw [if_pos hlt]
      simp)]
    unfold validateQuestionPoints
    rw [if_pos hlt]

/-- Witness for `mc_parser_accepts_iff`: the demo over-limit submission
(total 1200) satisfies every hypothesis and is accepted; lowering both
point values to 25 (total 50) is rejected with the `totalPoints`
error. -/
theorem mc_parser_accepts_iff_witness :
    parseOk (fromMultipleChoiceSubmission (some "Q")
      (some demoOverTotalSubmission) (some 60)) = true
  ∧ fromMultipleChoiceSubmission (some "Q")
      (some ⟨some .MultipleChoiceFormat,
        some [⟨some "c1", some 25⟩, ⟨some "c2", some 25⟩], some 1⟩) (some 60)
      = .error [⟨"totalPoints", .num 50⟩] := by
  constructor
  · exact (mc_parser_accepts_iff "Q" 60
      [⟨some "c1", some 600⟩, ⟨some "c2", some 600⟩] 1 (by decide)
      (by constructor <;> decide) (by constructor <;> decide)
      (by decide) (by constructor <;> decide)).1.mpr (by decide)
  · exact (mc_parser_accepts_iff "Q" 60
      [⟨some "c1", some 25⟩, ⟨some "c2", some 25⟩] 1 (by decide)
      (by constructor <;> decide) (by constructor <;> decide)
      (by decide) (by constructor <;> decide)).2 (by decide)

/-- Claim C8 (counterexample): from the empty quiz, add a question, advance
onto it, then remove it: `currentIndex` stays 0 while the quiz is empty,
so the claimed invariant `currentIndex < len(questions)` is violated. -/
theorem removeQuestion_breaks_index_bound :
    demoQuizAfterRemove.currentQuestionIndex = 0
  ∧ demoQuizAfterRemove.numQuestions = 0
  ∧ ¬ demoQuizAfterRemove.Inv := by
  decide

theorem applyOp_index_monotone (qz : Quiz) (op : QuizOp) :
    qz.currentQuestionIndex ≤ (qz.applyOp op).currentQuestionIndex := by
  cases op with
  | add q => exact le_refl _
  | advance =>
      unfold Quiz.applyOp Quiz.advanceToNextQuestion
      dsimp only
      split_ifs with h
      · exact le_refl _
      · exact le_of_lt (lt_add_one _)
  | remove i =>
      unfold Quiz.applyOp Quiz.removeQuestion
      dsimp only
      split_ifs with h
      · exact le_refl _
      · exact le_refl _
  | replace i q =>
      unfold Quiz.applyOp Quiz.replaceQuestion
      dsimp only
      split_ifs with h
      · exact le_refl _
      · rcases listGetInt qz.questions i with _ | old
        · exact le_refl _
        · dsimp only
          split_ifs with h2
          · exact le_refl _
          · exact le_refl _

theorem applyOps_index_monotone (ops : List QuizOp) (qz : Quiz) :
    qz.currentQuestionIndex ≤ (qz.applyOps ops).currentQuestionIndex := by
  induction ops generalizing qz with
  | nil => exact le_refl _
  | cons op rest ih =>
      exact le_trans (applyOp_index_monotone qz op) (ih (qz.applyOp op))

theorem applyOp_inv (qz : Quiz) (op : QuizOp) (hInv : qz.Inv)
    (hsafe : ∀ i, op = .remove i → qz.currentQuestionIndex < i) :
    (qz.applyOp op).Inv := by
  obtain ⟨hlo, hhi⟩ := hInv
  cases op with
  | add q =>
      refine ⟨hlo, ?_⟩
      show qz.currentQuestionIndex
        < ((qz.questions ++ [_]).length : ℤ)
      rw [List.length_append]
      push_cast
      unfold Quiz.numQuestions at hhi
      omega
  | advance =>
      unfold Quiz.applyOp Quiz.advanceToNextQuestion
      dsimp only
      split_ifs with h
      · exact ⟨hlo, hhi⟩
      · refine ⟨?_, ?_⟩
        · show (-1 : ℤ) ≤ qz.currentQuestionIndex + 1
          omega
        show qz.currentQuestionIndex + 1
          < ((listModifyInt qz.questions _ Question.start).length : ℤ)
        rw [listModifyInt_length]
        unfold Quiz.numQuestions at h
        omega
  | remove i =>
      have hci : qz.currentQuestionIndex < i := hsafe i rfl
      unfold Quiz.applyOp Quiz.removeQuestion
      dsimp only
      split_ifs with h
      · exact ⟨hlo, hhi⟩
      · push_neg at h
        obtain ⟨h0, hlen⟩ := h
        refine ⟨hlo, ?_⟩
        show qz.currentQuestionIndex
          < ((qz.questions.eraseIdx i.toNat).length : ℤ)
        rw [List.length_eraseIdx_of_lt]
        · unfold Quiz.numQuestions at hlen hhi
          omega
        · unfold Quiz.numQuestions at hlen
          omega
  | replace i q =>
      unfold Quiz.applyOp Quiz.replaceQuestion
      dsimp only
      split_ifs with h
      · exact ⟨hlo, hhi⟩
      · rcases listGetInt qz.questions i with _ | old
        · exact ⟨hlo, hhi⟩
        · dsimp only
          split_ifs with h2
          · refine ⟨hlo, ?_⟩
            show qz.currentQuestionIndex
              < ((qz.questions.set i.toNat q).length : ℤ)
            rw [List.length_set]
            exact hhi
          · exact ⟨hlo, hhi⟩

theorem applyOps_inv (ops : List QuizOp) (qz : Quiz) (hInv : qz.Inv)
    (hsafe : qz.safeOps ops = true) : (qz.applyOps ops).Inv := by
  induction ops generalizing qz with
  | nil => exact hInv
  | cons op rest ih =>
      unfold Quiz.safeOps at hsafe
      rw [Bool.and_eq_true] at hsafe
      refine ih (qz.applyOp op) (applyOp_inv qz op hInv ?_) hsafe.2
      intro i hop
      subst hop
      exact of_decide_eq_true hsafe.1

/-- Claim C8 (amended): over any sequence of quiz operations the current
index never decreases and stays at least −1; and the full invariant
`−1 ≤ currentIndex < len(questions)` is maintained from the empty quiz
provided every `removeQuestion` targets an index strictly above the
current index at that moment (an unrestricted remove can break the upper
bound, as the counterexample shows). -/
theorem quiz_index_invariant_amended :
    (∀ (qz : Quiz) (ops : List QuizOp),
      qz.currentQuestionIndex ≤ (qz.applyOps ops).currentQuestionIndex)
  ∧ (∀ (qz : Quiz) (ops : List QuizOp), qz.Inv → qz.safeOps ops = true →
      (qz.applyOps ops).Inv)
  ∧ (∀ ops : List QuizOp, Quiz.new.safeOps ops = true →
      (Quiz.new.applyOps ops).Inv) :=
  ⟨fun qz ops => applyOps_index_monotone ops qz,
   fun qz ops hInv hsafe => applyOps_inv ops qz hInv hsafe,
   fun ops hsafe => applyOps_inv ops Quiz.new ⟨by decide, by decide⟩ hsafe⟩

/-- Witness for `quiz_index_invariant_amended`: a concrete safe sequence
(the removal targets an index above the current one), with the invariant
evaluated at the result. -/
theorem quiz_index_invariant_amended_witness :
    Quiz.new.safeOps [.add demoMcQuestion, .advance, .remove 1] = true
  ∧ (Quiz.new.applyOps [.add demoMcQuestion, .advance, .remove 1]).Inv
  ∧ Quiz.new.currentQuestionIndex
      ≤ (Quiz.new.applyOps
          [.add demoMcQuestion, .advance, .remove 1]).currentQuestionIndex :=
  ⟨by decide,
   quiz_index_invariant_amended.2.2 [.add demoMcQuestion, .advance, .remove 1]
     (by decide),
   quiz_index_invariant_amended.1 Quiz.new
     [.add demoMcQuestion, .advance, .remove 1]⟩

theorem fillIn_rebuild (l : List (String × FillInAnswer))
    (acc : SMap FillInAnswer)
    (hcanon : ∀ p ∈ l, p.1 = jsToLower p.2.text)
    (hnodup : (acc.keys ++ l.map Prod.fst).Nodup) :
    (l.map Prod.snd).foldl (fun m a => m.set (jsToLower a.text) a) acc
      = ⟨acc.entries ++ l⟩ := by
  induction l generalizing acc with
  | nil => simp
  | cons p rest ih =>
      obtain ⟨k, a⟩ := p
      have hk : k = jsToLower a.text := hcanon (k, a) (List.mem_cons_self _ _)
      have hdisj : acc.keys.Disjoint (((k, a) :: rest).map Prod.fst) :=
        List.disjoint_of_nodup_append hnodup
      have hnotin : k ∉ acc.keys := by
        intro hmem
        exact hdisj hmem (by simp)
      have hset : acc.set (jsToLower a.text) a = ⟨acc.entries ++ [(k, a)]⟩ := by
        rw [← hk]
        unfold SMap.set
        rw [if_neg (by
          rw [(SMap.has_eq_false_iff acc k).mpr hnotin]
          simp)]
      rw [List.map_cons, List.foldl_cons, hset]
      have hkeys : (⟨acc.entries ++ [(k, a)]⟩ : SMap FillInAnswer).keys
          = acc.keys ++ [k] := by
        show (acc.entries ++ [(k, a)]).map Prod.fst
          = acc.entries.map Prod.fst ++ [k]
        rw [List.map_append]
        rfl
      have hnodup2 : ((⟨acc.entries ++ [(k, a)]⟩ : SMap FillInAnswer).keys
          ++ rest.map Prod.fst).Nodup := by
        rw [hkeys, List.append_assoc]
        have : [k] ++ rest.map Prod.fst = ((k, a) :: rest).map Prod.fst := rfl
        rw [this]
        exact hnodup
      rw [ih ⟨acc.entries ++ [(k, a)]⟩
        (fun p hp => hcanon p (List.mem_cons_of_mem _ hp)) hnodup2]
      congr 1
      rw [List.append_assoc]
      rfl

/-- Claim C9 (amended): `clone()` preserves `text`, `timeLimit`,
`totalPoints`, `responses`, `frequency`, `firstCorrect`, `isStarted`,
`hasEnded` and (for both body kinds, the fill-in one keyed canonically
on lowercased text, as the constructors build it) the `body`, and
`Quiz.clone` clones every question keeping the current index — but the
copy's `index` is reset to −1 and its feedback map is empty, so a clone
is NOT observably identical to the original. -/
theorem clone_amended :
    (∀ q : Question,
        q.clone.text = q.text
      ∧ q.clone.timeLimit = q.timeLimit
      ∧ q.clone.totalPoints = q.totalPoints
      ∧ q.clone.responses = q.responses
      ∧ q.clone.frequency = q.frequency
      ∧ q.clone.firstCorrect = q.firstCorrect
      ∧ q.clone.isStarted = q.isStarted
      ∧ q.clone.hasEnded = q.hasEnded
      ∧ q.clone.index = -1
      ∧ q.clone.feedback = SMap.empty)
  ∧ (∀ (q : Question) (choices : List MultipleChoiceAnswer) (answer : ℤ),
      q.body = .mc choices answer → q.clone.body = q.body)
  ∧ (∀ (q : Question) (answers : SMap FillInAnswer),
      q.body = .fillIn answers →
      (∀ p ∈ answers.entries, p.1 = jsToLower p.2.text) →
      (answers.entries.map Prod.fst).Nodup →
      q.clone.body = q.body)
  ∧ (∀ qz : Quiz,
        qz.clone.currentQuestionIndex = qz.currentQuestionIndex
      ∧ qz.clone.questions = qz.questions.map Question.clone) := by
  refine ⟨?_, ?_, ?_, ?_⟩
  · intro q
    exact ⟨rfl, rfl, rfl, rfl, rfl, rfl, rfl, rfl, rfl, rfl⟩
  · intro q choices answer hb
    show q.body.cloneBody = q.body
    rw [hb]
    rfl
  · intro q answers hb hcanon hnodup
    show q.body.cloneBody = q.body
    rw [hb]
    show QuestionBodyType.fillIn
      ((answers.entries.map Prod.snd).foldl
        (fun m a => m.set (jsToLower a.text) a) SMap.empty)
      = QuestionBodyType.fillIn answers
    rw [fillIn_rebuild answers.entries SMap.empty hcanon (by simpa)]
    rfl
  · intro qz
    exact ⟨rfl, rfl⟩

/-- Witness for `clone_amended`: the clone of a concrete parser-built
fill-in question (with feedback and an assigned index) preserves the
listed fields and the body, and a concrete quiz clone keeps its index. -/
theorem clone_amended_witness :
    demoFillInWithFeedback.clone.responses = demoFillInWithFeedback.responses
  ∧ demoFillInWithFeedback.clone.index = -1
  ∧ demoFillInWithFeedback.clone.feedback = SMap.empty
  ∧ demoFillInWithFeedback.clone.body = demoFillInWithFeedback.body
  ∧ demoMcQuestion.clone.body = demoMcQuestion.body := by
  refine ⟨?_, ?_, ?_, ?_, ?_⟩
  · exact ((clone_amended.1 demoFillInWithFeedback).2.2.2.1)
  · exact ((clone_amended.1 demoFillInWithFeedback).2.2.2.2.2.2.2.2.1)
  · exact ((clone_amended.1 demoFillInWithFeedback).2.2.2.2.2.2.2.2.2)
  · exact clone_amended.2.2.1 demoFillInWithFeedback
      (SMap.empty.set "paris" ⟨"Paris", 100⟩) (by decide) (by decide)
      (by decide)
  · exact clone_amended.2.1 demoMcQuestion [⟨"c1", 200⟩, ⟨"c2", 200⟩] 1
      (by decide)

/-- Claim C9 (counterexample): `clone()` does not copy `index` (the copy is
back at the unassigned −1) nor the feedback map (the copy's is empty),
so a cloned question does not have the same observable state as the
original. -/
theorem clone_drops_index_and_feedback :
    demoFillInWithFeedback.index = 0
  ∧ demoFillInWithFeedback.feedback.size = 1
  ∧ demoFillInWithFeedback.clone.index = -1
  ∧ demoFillInWithFeedback.clone.feedback.size = 0 := by
  decide

end QuizEz
